import Mathlib

/-!
Verification development for the multi-tenant analytics portal
(`client.py`, `audit_logger.py`, and the per-page filter enforcement in
`pages/02_Query_Builder.py` and `pages/03_Basic_LLM.py`).

The Python source is shallowly embedded: strings are Lean `String`,
Python lists are Lean `List`, Python `None`-able values are `Option`,
the Streamlit session state is an explicit record threaded through the
connection logic, and `st.stop()` after `st.error(...)` is modelled as
returning `none` instead of a connection descriptor.  Python string
helpers (`split`, `strip`, `lower`, `in`, `replace`) are re-implemented
on `List Char` by structural recursion so that every definition
evaluates inside the kernel.

Modelling notes on intentional simplifications of library behaviour:
`str.strip`/`str.lower` are modelled for the ASCII range only
(the repository only handles ASCII identifiers), and the
`urllib.parse.parse_qs` model omits percent/plus decoding, which is the
identity on the token and environment-id strings the program builds.
-/

/-- Single-quote character, kept as a named constant so rendered filter
clauses can be written without quote characters inside string literals. -/
def sqc : String := String.singleton (Char.ofNat 39)

/-- Boolean test that `pat` is a prefix of the second list. -/
def listPrefixOf : List Char → List Char → Bool
  | [], _ => true
  | _ :: _, [] => false
  | a :: as, b :: bs => a == b && listPrefixOf as bs

/-- Boolean test that `needle` occurs as a contiguous sublist of `hay`
(the model of the Python substring operator `needle in hay`). -/
def listContainsSub (needle : List Char) : List Char → Bool
  | [] => listPrefixOf needle []
  | c :: rest => listPrefixOf needle (c :: rest) || listContainsSub needle rest

/-- Model of Python `needle in hay` on strings. -/
def strContains (hay needle : String) : Bool :=
  listContainsSub needle.data hay.data

/-- Split a character list at the first occurrence of `c`:
returns the part before it and, when `c` occurs, the part after it
(the model of Python `s.split(c, 1)`). -/
def splitAtFirst (c : Char) : List Char → List Char × Option (List Char)
  | [] => ([], none)
  | x :: xs =>
    if x = c then ([], some xs)
    else
      let r := splitAtFirst c xs
      (x :: r.1, r.2)

/-- Split a character list at every occurrence of `c`
(the model of Python `s.split(c)`: always at least one part). -/
def splitOnChar (c : Char) : List Char → List (List Char)
  | [] => [[]]
  | x :: xs =>
    match splitOnChar c xs with
    | [] => [[]]
    | p :: ps => if x = c then [] :: p :: ps else (x :: p) :: ps

/-- ASCII lower-casing of one character (model of Python `str.lower`
for the ASCII identifiers this program manipulates). -/
def lowerChar (c : Char) : Char :=
  if 'A' ≤ c ∧ c ≤ 'Z' then Char.ofNat (c.toNat + 32) else c

/-- ASCII lower-casing of a string. -/
def lowerStr (s : String) : String := ⟨s.data.map lowerChar⟩

/-- Model of Python `str.strip()`: drop whitespace at both ends. -/
def pyStrip (s : String) : String :=
  ⟨((s.data.dropWhile Char.isWhitespace).reverse.dropWhile Char.isWhitespace).reverse⟩

/-! ## Filter enforcement (`pages/02_Query_Builder.py`, `pages/03_Basic_LLM.py`) -/

/-- The dimension used for the mandatory row-level identity filter
(`USER_FILTER_DIMENSION` in `helpers.py`). -/
def USER_FILTER_DIMENSION : String := "member__email"

/-- The rendered canonical identity clause for a member email, exactly as
both query pages render it:
`USER_FILTER_SQL = f"... Dimension(...) ... = <email in single quotes>"`
with the double braces written via character escapes. -/
def canonicalClause (email : String) : String :=
  "\x7b\x7b Dimension(" ++ sqc ++ USER_FILTER_DIMENSION ++ sqc ++ ") \x7d\x7d = "
    ++ sqc ++ email ++ sqc

/-- A `WhereInput` from `schema.py` as used by the query builder page:
only its rendered `sql` predicate matters to enforcement. -/
structure WhereInput where
  sql : String
deriving DecidableEq, Repr

/-- Model of `ensure_where_inputs` in `pages/02_Query_Builder.py`,
parameterised by the current member email that defines
`USER_FILTER_SQL`.  `None` arguments are modelled by the caller passing
the empty list (the source normalises with `list(where_inputs or [])`). -/
def ensure_where_inputs (email : String) (where_inputs : List WhereInput) :
    List WhereInput :=
  if where_inputs.any (fun w => w.sql == canonicalClause email) then where_inputs
  else where_inputs ++ [⟨canonicalClause email⟩]

/-- Model of the enforcement step in `pages/03_Basic_LLM.py`
(`if user_filter_clause not in where_clauses: where_clauses.append(...)`). -/
def append_user_filter_clause (email : String) (where_clauses : List String) :
    List String :=
  if where_clauses.any (fun w => w == canonicalClause email) then where_clauses
  else where_clauses ++ [canonicalClause email]

/-! ## Audit log (`audit_logger.py`)

The audit log lives in `st.session_state.audit_log`; it is modelled as a
plain list threaded explicitly.  The `pandas` DataFrame used by
`get_audit_log` is a value-preserving re-presentation of that list, so
the scan and the statistics are modelled directly over the list of
entries. -/

/-- An audit entry, with exactly the fields of the dict built by
`log_query_execution`. -/
structure AuditEntry where
  timestamp : String
  query_type : String
  member_email : String
  filters_applied : List String
  metrics : List String
  dimensions : List String
  row_count : Option Int
  status : String
  error_message : Option String
  page : String
  session_id : Nat
deriving DecidableEq, Repr

/-- The entry built by `log_query_execution` from its arguments:
`dimensions or []` maps a missing or empty value to `[]`, and
`page or "unknown"` maps a missing or empty page to `"unknown"`.
`now` models `datetime.utcnow().isoformat()` and `sid` models
`id(st.session_state)`. -/
def mkAuditEntry (now : String) (sid : Nat) (query_type member_email : String)
    (filters_applied metrics : List String) (dimensions : Option (List String))
    (row_count : Option Int) (status : String) (error_message : Option String)
    (page : Option String) : AuditEntry :=
  { timestamp := now
    query_type := query_type
    member_email := member_email
    filters_applied := filters_applied
    metrics := metrics
    dimensions := dimensions.getD []
    row_count := row_count
    status := status
    error_message := error_message
    page := match page with
      | some p => if p = "" then "unknown" else p
      | none => "unknown"
    session_id := sid }

/-- Model of `log_query_execution`: initialises the log when absent
(the caller passes the current list, `[]` for a fresh session) and
appends one entry. -/
def log_query_execution (log : List AuditEntry) (now : String) (sid : Nat)
    (query_type member_email : String) (filters_applied metrics : List String)
    (dimensions : Option (List String) := none) (row_count : Option Int := none)
    (status : String := "success") (error_message : Option String := none)
    (page : Option String := none) : List AuditEntry :=
  log ++ [mkAuditEntry now sid query_type member_email filters_applied metrics
            dimensions row_count status error_message page]

/-- One recorded call of `log_query_execution`, used to state properties
of call sequences. -/
structure CallArgs where
  now : String
  query_type : String
  member_email : String
  filters_applied : List String
  metrics : List String
  dimensions : Option (List String)
  row_count : Option Int
  status : String
  error_message : Option String
  page : Option String
deriving DecidableEq, Repr

/-- Run a sequence of `log_query_execution` calls in order. -/
def runCalls (sid : Nat) (log : List AuditEntry) (calls : List CallArgs) :
    List AuditEntry :=
  calls.foldl
    (fun l a =>
      log_query_execution l a.now sid a.query_type a.member_email
        a.filters_applied a.metrics a.dimensions a.row_count a.status
        a.error_message a.page)
    log

/-- The summary record returned by `get_audit_stats`; the two
`value_counts().to_dict()` dictionaries are modelled as count
functions. -/
structure AuditStats where
  total_queries : Nat
  unique_members : Nat
  success_rate : Rat
  queries_by_type : String → Nat
  queries_by_page : String → Nat

/-- Model of `get_audit_stats`. -/
def get_audit_stats (log : List AuditEntry) : AuditStats :=
  if log.isEmpty then
    { total_queries := 0
      unique_members := 0
      success_rate := 0
      queries_by_type := fun _ => 0
      queries_by_page := fun _ => 0 }
  else
    { total_queries := log.length
      unique_members := (log.map (fun e => e.member_email)).dedup.length
      success_rate :=
        ((log.countP (fun e => e.status == "success") : Rat) / (log.length : Rat))
          * 100
      queries_by_type := fun t => log.countP (fun e => e.query_type == t)
      queries_by_page := fun p => log.countP (fun e => e.page == p) }

/-- Model of `validate_filter_applied`: false on an empty filter list,
otherwise true when some filter clause contains the member email as a
substring. -/
def validate_filter_applied (member_email : String)
    (filters_applied : List String) : Bool :=
  if filters_applied.isEmpty then false
  else filters_applied.any (fun clause => strContains clause member_email)

/-- Model of `get_security_violations`: the entries whose recorded
filters do not validate. -/
def get_security_violations (log : List AuditEntry) : List AuditEntry :=
  log.filter (fun e => !(validate_filter_applied e.member_email e.filters_applied))

/-- Sample audit entry with an empty member email and a non-empty filter
list, used to instantiate the empty-email edge case. -/
def sampleEmptyEmailEntry : AuditEntry :=
  mkAuditEntry "2024-01-01T00:00:00" 0 "query_builder" ""
    ["some rendered clause"] ["total_claims"] none none "success" none none

/-- Sample audit entry with an empty member email and no filters. -/
def sampleNoFilterEntry : AuditEntry :=
  mkAuditEntry "2024-01-01T00:00:01" 0 "llm_query" "" [] ["total_claims"]
    none none "failed" none none

/-- Sample audit log holding both sample entries. -/
def sampleLog : List AuditEntry := [sampleEmptyEmailEntry, sampleNoFilterEntry]

/-! ## Tenant resolution, credentials and connections (`client.py`)

Configuration (`st.secrets` and `os.getenv`) is modelled by a `Config`
record; `os.getenv(k, "")` is a total string-valued function.  The
warning emitted by `get_company_token` on fallback is modelled as a
Boolean flag in its result.  `st.cache_data` caches a pure function, so
`get_connection_attributes` is modelled as the pure function itself; the
cache clear in `ensure_connection` is then a no-op.  `st.error` +
`st.stop` is modelled by returning no descriptor. -/

/-- Ambient configuration: the optional `JDBC_URL` secret and the
process environment. -/
structure Config where
  secrets_jdbc_url : Option String
  getenv : String → String

/-- The domain-to-company table inside `get_company_from_email`. -/
def domain_map : List (String × String) :=
  [("techcorp.com", "techcorp"),
   ("retailplus.com", "retailplus"),
   ("manufacturingco.com", "manufacturingco")]

/-- Model of `get_company_from_email`: empty or at-sign-free emails map
to `"default"`; otherwise the lower-cased text after the last at sign is
looked up in `domain_map`, defaulting to `"default"`. -/
def get_company_from_email (email : String) : String :=
  if email = "" ∨ '@' ∉ email.data then "default"
  else
    ((domain_map.lookup
        (lowerStr ⟨(splitOnChar '@' email.data).getLastD []⟩)).getD "default")

/-- The per-company token table inside `get_company_token`, with each
environment value stripped as in the source. -/
def companyTokenMap (cfg : Config) : List (String × String) :=
  [("techcorp", pyStrip (cfg.getenv "DBT_TECHCORP_TOKEN")),
   ("retailplus", pyStrip (cfg.getenv "DBT_RETAILPLUS_TOKEN")),
   ("manufacturingco", pyStrip (cfg.getenv "DBT_MANUFACTURINGCO_TOKEN"))]

/-- The per-tenant secret configured for a company name:
`token_map.get(company.lower(), "")`. -/
def tenantSecret (cfg : Config) (company : String) : String :=
  ((companyTokenMap cfg).lookup (lowerStr company)).getD ""

/-- Model of `get_company_token`: the per-tenant secret when present and
non-empty, otherwise the generic `DBT_TOKEN` fallback; the second
component records whether the fallback warning was logged. -/
def get_company_token (cfg : Config) (company : String) : String × Bool :=
  let token := tenantSecret cfg company
  if token = "" then (pyStrip (cfg.getenv "DBT_TOKEN"), true)
  else (token, false)

/-- The credential the program resolves for the tenant of a member
email: `get_company_token(get_company_from_email(email))`. -/
def companyToken (cfg : Config) (email : String) : String :=
  (get_company_token cfg (get_company_from_email email)).1

/-- The environment id used when building the JDBC URL:
`os.getenv("DBT_PROD_ENV_ID", "").strip() or "384973"`. -/
def envIdCfg (cfg : Config) : String :=
  if pyStrip (cfg.getenv "DBT_PROD_ENV_ID") = "" then "384973"
  else pyStrip (cfg.getenv "DBT_PROD_ENV_ID")

/-- The semantic-layer host used when building the JDBC URL. -/
def hostCfg (cfg : Config) : String :=
  if pyStrip (cfg.getenv "DBT_SL_HOST") = "" then "semantic-layer.cloud.getdbt.com"
  else pyStrip (cfg.getenv "DBT_SL_HOST")

/-- The JDBC URL assembled by `resolve_jdbc_url` from host, environment
id and token. -/
def buildJdbcUrl (host envId token : String) : String :=
  "jdbc:arrow-flight-sql://" ++ host ++ ":443?environmentId=" ++ envId
    ++ "&token=" ++ token

/-- Truthiness of an optional string (Python `if member_email:`). -/
def optTruthy : Option String → Bool
  | none => false
  | some s => !(s == "")

/-- Model of `resolve_jdbc_url`: the secrets URL when configured;
otherwise a URL built around the company token for a truthy member
email, or around the generic token, returning `""` when no token can be
resolved. -/
def resolve_jdbc_url (cfg : Config) (member_email : Option String) : String :=
  match cfg.secrets_jdbc_url with
  | some url => url
  | none =>
    let token :=
      match member_email with
      | some e =>
        if e = "" then pyStrip (cfg.getenv "DBT_TOKEN") else companyToken cfg e
      | none => pyStrip (cfg.getenv "DBT_TOKEN")
    if token = "" then ""
    else buildJdbcUrl (hostCfg cfg) (envIdCfg cfg) token

/-- Connection attributes (`ConnAttr` in `client.py`); the params dict
is an association list with unique keys. -/
structure ConnAttr where
  host : String
  params : List (String × String)
  auth_header : String
deriving DecidableEq, Repr

/-- Scheme-character test of `urllib.parse`: an initial alphabetic
character followed by alphanumerics, plus, minus or dot. -/
def validScheme : List Char → Bool
  | [] => false
  | c :: cs =>
    c.isAlpha && cs.all (fun d => d.isAlphanum || d == '+' || d == '-' || d == '.')

/-- Drop a leading valid `scheme:` from a URL, as `urlparse` does. -/
def schemeSplit (s : List Char) : List Char :=
  match splitAtFirst ':' s with
  | (pre, some rest) => if validScheme pre then rest else s
  | (_, none) => s

/-- Drop a leading `//netloc` component, as `urlparse` does. -/
def netlocStrip (s : List Char) : List Char :=
  if s.take 2 = ['/', '/'] then
    (s.drop 2).dropWhile (fun c => !(c == '/' || c == '?' || c == '#'))
  else s

/-- Query-string pairs of `parse_qs` with default arguments: split on
ampersands, keep only pieces with an equals sign and a non-empty value
(percent/plus decoding is the identity on the URLs this program builds
and is elided). -/
def qsPairs (query : List Char) : List (List Char × List Char) :=
  (splitOnChar '&' query).filterMap (fun piece =>
    match splitAtFirst '=' piece with
    | (_, none) => none
    | (k, some v) => if v = [] then none else some (k, v))

/-- Keep the first pair for each key, modelling dict construction from
`parse_qs` output (whose keys are unique in first-occurrence order). -/
def dedupKeep (seen : List String) : List (String × String) → List (String × String)
  | [] => []
  | (k, v) :: rest =>
    if seen.contains k then dedupKeep seen rest
    else (k, v) :: dedupKeep (k :: seen) rest

/-- Replace every occurrence of `pat` (non-empty) left to right, with a
structural fuel argument so the definition evaluates in the kernel. -/
def replaceFuel (pat rep : List Char) : Nat → List Char → List Char
  | _, [] => []
  | 0, l => l
  | n + 1, x :: xs =>
    if !pat.isEmpty && listPrefixOf pat (x :: xs) then
      rep ++ replaceFuel pat rep n (List.drop pat.length (x :: xs))
    else x :: replaceFuel pat rep n xs

/-- Model of Python `s.replace(pat, rep)` for non-empty patterns. -/
def pyReplace (s pat rep : String) : String :=
  ⟨replaceFuel pat.data rep.data s.data.length s.data⟩

/-- Model of `get_connection_attributes`: parse the JDBC URL, pop the
token from the lower-cased query params, and build the descriptor; no
token means an error (`none`). -/
def get_connection_attributes (uri : String) : Option ConnAttr :=
  let beforeFrag := (splitAtFirst '#' (netlocStrip (schemeSplit uri.data))).1
  let pq := splitAtFirst '?' beforeFrag
  let params :=
    dedupKeep []
      ((qsPairs (pq.2.getD [])).map (fun kv => (lowerStr ⟨kv.1⟩, (⟨kv.2⟩ : String))))
  match params.lookup "token" with
  | none => none
  | some token =>
    some { host := pyReplace (pyReplace ⟨pq.1⟩ "arrow-flight-sql" "https") ":443" ""
           params := params.filter (fun p => !(p.1 == "token"))
           auth_header := "Bearer " ++ token }

/-- The Streamlit session fields touched by `ensure_connection`. -/
structure SessionState where
  selected_member_email : Option String
  conn_member_email : Option String
  jdbc_url : Option String
  conn : Option ConnAttr
deriving DecidableEq, Repr

/-- A fresh session with nothing cached. -/
def initSession : SessionState :=
  { selected_member_email := none
    conn_member_email := none
    jdbc_url := none
    conn := none }

/-- Result of one `ensure_connection` call: the updated session, the
returned descriptor (`none` models `st.error` followed by `st.stop`),
and whether `get_connection_attributes` was invoked to (re)build the
cached descriptor. -/
structure EnsureResult where
  state : SessionState
  conn : Option ConnAttr
  rebuilt : Bool
deriving DecidableEq, Repr

/-- Model of `ensure_connection`, following the source step by step:
default the member email from the session, resolve the JDBC URL and
stop when it is empty, force a refresh when the (truthy) member email
differs from the cached one, store the URL, and rebuild the descriptor
when forced or when no descriptor is cached. -/
def ensure_connection (cfg : Config) (s0 : SessionState) (force0 : Bool)
    (member0 : Option String) : EnsureResult :=
  let member := if optTruthy member0 then member0 else s0.selected_member_email
  let url := resolve_jdbc_url cfg member
  if url = "" then ⟨s0, none, false⟩
  else
    let changed := optTruthy member && !(s0.conn_member_email == member)
    let force1 := force0 || changed
    let s1 := if changed then { s0 with conn_member_email := member } else s0
    let s2 :=
      if force1 || !(s1.jdbc_url == some url) then { s1 with jdbc_url := some url }
      else s1
    if force1 || s2.conn.isNone then
      match get_connection_attributes url with
      | none => ⟨s2, none, true⟩
      | some conn => ⟨{ s2 with conn := some conn }, some conn, true⟩
    else ⟨s2, s2.conn, false⟩

/-- Independent statement of the tenant-resolution contract, written
from the specification text: a total function that maps an empty or
at-sign-free email to the default tenant and otherwise matches the
domain after the last at sign case-insensitively against the
domain-to-tenant table, defaulting when unmapped.  The domain after the
last at sign is computed here by reversing and taking up to the first
at sign. -/
def resolveSpecTenant (email : String) : String :=
  if email = "" ∨ '@' ∉ email.data then "default"
  else
    match domain_map.lookup
        (lowerStr ⟨(email.data.reverse.takeWhile (fun c => c != '@')).reverse⟩) with
    | some t => t
    | none => "default"

/-- Sample configuration with only the techcorp token set (surrounded by
whitespace that `strip()` removes) and no secrets file. -/
def witCfg : Config :=
  { secrets_jdbc_url := none
    getenv := fun k => if k = "DBT_TECHCORP_TOKEN" then " tok_tech_123 " else "" }

/-- Configuration with no secrets file and an entirely empty
environment: no credential of any kind can be resolved. -/
def emptyCfg : Config :=
  { secrets_jdbc_url := none, getenv := fun _ => "" }

/-! ## Helper lemmas for enforcement -/

theorem ensure_where_inputs_of_any (email : String) (F : List WhereInput)
    (h : F.any (fun w => w.sql == canonicalClause email) = true) :
    ensure_where_inputs email F = F := by
  simp [ensure_where_inputs, h]

theorem ensure_where_inputs_of_not_any (email : String) (F : List WhereInput)
    (h : F.any (fun w => w.sql == canonicalClause email) = false) :
    ensure_where_inputs email F = F ++ [⟨canonicalClause email⟩] := by
  simp [ensure_where_inputs, h]

theorem any_ensure_where_inputs (email : String) (F : List WhereInput) :
    (ensure_where_inputs email F).any (fun w => w.sql == canonicalClause email)
      = true := by
  unfold ensure_where_inputs
  cases h : F.any (fun w => w.sql == canonicalClause email) with
  | true => simp [h]
  | false => simp [h]

theorem countP_ensure_where_inputs (email : String) (F : List WhereInput) :
    (ensure_where_inputs email F).countP
        (fun w => w.sql == canonicalClause email)
      = max 1 (F.countP (fun w => w.sql == canonicalClause email)) := by
  unfold ensure_where_inputs
  cases h : F.any (fun w => w.sql == canonicalClause email) with
  | true =>
    have hpos : 0 < F.countP (fun w => w.sql == canonicalClause email) := by
      rcases List.any_eq_true.mp h with ⟨w, hw, hws⟩
      exact List.countP_pos_iff.mpr ⟨w, hw, hws⟩
    simp [h, Nat.max_eq_right hpos]
  | false =>
    have hzero : F.countP (fun w => w.sql == canonicalClause email) = 0 := by
      refine List.countP_eq_zero.mpr ?_
      intro w hw
      have := List.any_eq_false.mp h w hw
      simpa using this
    simp [h, List.countP_append, hzero]

/-- C1 (amended form): enforcement guarantees at least one canonical
clause; the multiplicity of canonical clauses in the result is
`max 1` of the multiplicity in the input, and the list is extended by the
canonical clause exactly when no input element equals it. -/
theorem c1_enforce_canonical_presence (email : String) (F : List WhereInput) :
    (ensure_where_inputs email F).countP
        (fun w => w.sql == canonicalClause email)
      = max 1 (F.countP (fun w => w.sql == canonicalClause email))
    ∧ ensure_where_inputs email F
      = (if F.any (fun w => w.sql == canonicalClause email) then F
         else F ++ [⟨canonicalClause email⟩]) := by
  refine ⟨countP_ensure_where_inputs email F, ?_⟩
  unfold ensure_where_inputs
  rfl

/-- C1 (counterexample to the claim as stated): a candidate list that
already holds two copies of the canonical clause is returned unchanged,
so the enforcement result contains two clauses equal to the canonical
clause, not exactly one. -/
theorem c1_counterexample :
    ¬ ((ensure_where_inputs "alice@techcorp.com"
          [⟨canonicalClause "alice@techcorp.com"⟩,
           ⟨canonicalClause "alice@techcorp.com"⟩]).countP
        (fun w => w.sql == canonicalClause "alice@techcorp.com") = 1) := by
  decide

/-- C2: filter enforcement is idempotent, both for the query-builder
variant on `WhereInput` values and for the LLM-page variant on plain
clause strings. -/
theorem c2_enforce_idempotent (email : String) (F : List WhereInput)
    (G : List String) :
    ensure_where_inputs email (ensure_where_inputs email F)
        = ensure_where_inputs email F
    ∧ append_user_filter_clause email (append_user_filter_clause email G)
        = append_user_filter_clause email G := by
  constructor
  · exact ensure_where_inputs_of_any email _ (any_ensure_where_inputs email F)
  · unfold append_user_filter_clause
    cases h : G.any (fun w => w == canonicalClause email) with
    | true => simp [h]
    | false => simp [h]

/-! ## Helper lemmas for the audit log -/

theorem mem_get_security_violations (log : List AuditEntry) (e : AuditEntry) :
    e ∈ get_security_violations log
      ↔ e ∈ log ∧ validate_filter_applied e.member_email e.filters_applied = false := by
  simp [get_security_violations, List.mem_filter]

theorem validate_filter_applied_eq_false (m : String) (fs : List String) :
    validate_filter_applied m fs = false
      ↔ (fs = [] ∨ ∀ c ∈ fs, strContains c m = false) := by
  cases fs with
  | nil => simp [validate_filter_applied]
  | cons c rest =>
    constructor
    · intro h
      refine Or.inr ?_
      have hany : (c :: rest).any (fun clause => strContains clause m) = false := by
        simpa [validate_filter_applied] using h
      intro x hx
      have := List.any_eq_false.mp hany x hx
      simpa using this
    · intro h
      have hall : ∀ x ∈ (c :: rest : List String), ¬ strContains x m = true := by
        rcases h with h | h
        · cases h
        · intro x hx
          simp [h x hx]
      simp [validate_filter_applied, List.any_eq_false.mpr hall]

theorem strContains_empty_needle (hay : String) :
    strContains hay "" = true := by
  unfold strContains
  cases h : hay.data with
  | nil => rfl
  | cons c rest => simp [listContainsSub, listPrefixOf]

theorem runCalls_eq_append_map (sid : Nat) (calls : List CallArgs) :
    ∀ log : List AuditEntry,
      runCalls sid log calls
        = log ++ calls.map (fun a =>
            mkAuditEntry a.now sid a.query_type a.member_email
              a.filters_applied a.metrics a.dimensions a.row_count a.status
              a.error_message a.page) := by
  induction calls with
  | nil => intro log; simp [runCalls]
  | cons a rest ih =>
    intro log
    have hstep :
        runCalls sid log (a :: rest)
          = runCalls sid
              (log_query_execution log a.now sid a.query_type a.member_email
                a.filters_applied a.metrics a.dimensions a.row_count a.status
                a.error_message a.page) rest := by
      simp [runCalls]
    rw [hstep, ih]
    simp [log_query_execution]

/-! ## Claim theorems for the audit log -/

/-- C3: an entry belongs to the violation scan exactly when it is in the
log and either has no recorded filters or none of its filters contains
its member email as a substring. -/
theorem c3_violation_scan_characterisation (log : List AuditEntry)
    (e : AuditEntry) :
    e ∈ get_security_violations log
      ↔ e ∈ log
        ∧ (e.filters_applied = []
           ∨ ∀ c ∈ e.filters_applied, strContains c e.member_email = false) := by
  rw [mem_get_security_violations, validate_filter_applied_eq_false]

/-- C6: a sequence of `log_query_execution` calls appends exactly one
entry per call, in invocation order, never touching earlier entries, and
the aggregate statistics report `total_queries` equal to the number of
calls. -/
theorem c6_audit_append_only (sid : Nat) (log0 : List AuditEntry)
    (calls : List CallArgs) :
    runCalls sid log0 calls
        = log0 ++ calls.map (fun a =>
            mkAuditEntry a.now sid a.query_type a.member_email
              a.filters_applied a.metrics a.dimensions a.row_count a.status
              a.error_message a.page)
    ∧ (runCalls sid [] calls).length = calls.length
    ∧ (get_audit_stats (runCalls sid [] calls)).total_queries = calls.length := by
  refine ⟨runCalls_eq_append_map sid calls log0, ?_, ?_⟩
  · rw [runCalls_eq_append_map]
    simp
  · rw [runCalls_eq_append_map]
    cases calls with
    | nil => simp [get_audit_stats]
    | cons a rest => simp [get_audit_stats]

/-- C8: the audit record operation is a total function of its arguments
in the embedding — for every combination of inputs it completes and its
whole effect is appending exactly one entry, leaving every earlier entry
in place; it has no failing branch that could abort the caller. -/
theorem c8_record_total_append (log : List AuditEntry) (now : String)
    (sid : Nat) (query_type member_email : String)
    (filters_applied metrics : List String) (dimensions : Option (List String))
    (row_count : Option Int) (status : String) (error_message : Option String)
    (page : Option String) :
    log_query_execution log now sid query_type member_email filters_applied
        metrics dimensions row_count status error_message page
      = log ++ [mkAuditEntry now sid query_type member_email filters_applied
          metrics dimensions row_count status error_message page]
    ∧ (log_query_execution log now sid query_type member_email filters_applied
        metrics dimensions row_count status error_message page).length
      = log.length + 1
    ∧ (log_query_execution log now sid query_type member_email filters_applied
        metrics dimensions row_count status error_message page).take log.length
      = log := by
  refine ⟨rfl, by simp [log_query_execution], ?_⟩
  simp [log_query_execution, List.take_left]

/-- C10: an audit entry whose member email is the empty string passes the
filter-presence check whenever any filter was recorded (the empty string
is a substring of every clause), so it is flagged by the violation scan
exactly when its filter list is empty. -/
theorem c10_empty_email_flagged_iff_no_filters (log : List AuditEntry)
    (e : AuditEntry) (hmem : e ∈ log) (hemail : e.member_email = "") :
    e ∈ get_security_violations log ↔ e.filters_applied = [] := by
  rw [mem_get_security_violations]
  cases hf : e.filters_applied with
  | nil => simp [hmem, hf, validate_filter_applied]
  | cons c rest =>
    have hval : validate_filter_applied e.member_email (c :: rest) = true := by
      rw [hemail]
      simp [validate_filter_applied, strContains_empty_needle]
    simp [hmem, hf, hval]

/-- C10 witness: the empty-email entry with one recorded filter is not
reported, while membership and the iff are evaluated on a concrete
two-entry log. -/
theorem c10_witness :
    (sampleEmptyEmailEntry ∈ sampleLog
      ∧ sampleEmptyEmailEntry.member_email = "")
    ∧ (sampleEmptyEmailEntry ∈ get_security_violations sampleLog
        ↔ sampleEmptyEmailEntry.filters_applied = []) :=
  ⟨⟨by decide, by decide⟩,
    c10_empty_email_flagged_iff_no_filters sampleLog sampleEmptyEmailEntry
      (by decide) (by decide)⟩

/-! ## Helper lemmas for splitting and tenant resolution -/

theorem splitOnChar_ne_nil (c : Char) (l : List Char) : splitOnChar c l ≠ [] := by
  cases l with
  | nil => simp [splitOnChar]
  | cons x xs =>
    simp only [splitOnChar]
    cases splitOnChar c xs with
    | nil => simp
    | cons p ps =>
      by_cases hx : x = c <;> simp [hx]

theorem splitOnChar_of_not_mem (c : Char) (l : List Char) (h : c ∉ l) :
    splitOnChar c l = [l] := by
  induction l with
  | nil => rfl
  | cons x xs ih =>
    have hx : ¬ x = c := fun he => h (he ▸ List.mem_cons_self x xs)
    have hxs : c ∉ xs := fun hm => h (List.mem_cons_of_mem x hm)
    simp only [splitOnChar, ih hxs]
    simp [hx]

theorem two_le_length_splitOnChar (c : Char) (l : List Char) (h : c ∈ l) :
    2 ≤ (splitOnChar c l).length := by
  induction l with
  | nil => cases h
  | cons x xs ih =>
    simp only [splitOnChar]
    rcases hsp : splitOnChar c xs with _ | ⟨p, ps⟩
    · exact absurd hsp (splitOnChar_ne_nil c xs)
    · by_cases hx : x = c
      · simp [hx]
      · have hxs : c ∈ xs := by
          rcases List.mem_cons.mp h with h1 | h1
          · exact absurd h1.symm hx
          · exact h1
        have := ih hxs
        rw [hsp] at this
        simpa [hx] using this

theorem getLastD_of_ne_nil {α : Type} (l : List α) (h : l ≠ []) (d1 d2 : α) :
    l.getLastD d1 = l.getLastD d2 := by
  cases l with
  | nil => exact absurd rfl h
  | cons b l' => rw [List.getLastD_cons, List.getLastD_cons]

theorem takeWhile_eq_self_of_all {α : Type} (p : α → Bool) (l : List α)
    (h : ∀ a ∈ l, p a = true) : l.takeWhile p = l := by
  induction l with
  | nil => rfl
  | cons x xs ih =>
    rw [List.takeWhile_cons, h x (List.mem_cons_self x xs)]
    simp [ih (fun a ha => h a (List.mem_cons_of_mem x ha))]

theorem getLastD_splitOnChar_cons_of_mem (c x : Char) (xs : List Char)
    (h : c ∈ xs) :
    (splitOnChar c (x :: xs)).getLastD [] = (splitOnChar c xs).getLastD [] := by
  rcases hsp : splitOnChar c xs with _ | ⟨p, ps⟩
  · exact absurd hsp (splitOnChar_ne_nil c xs)
  have hps : ps ≠ [] := by
    have h2 := two_le_length_splitOnChar c xs h
    rw [hsp] at h2
    cases ps with
    | nil => simp at h2
    | cons q qs => simp
  simp only [splitOnChar, hsp]
  by_cases hx : x = c
  · rw [if_pos hx, List.getLastD_cons]
  · rw [if_neg hx, List.getLastD_cons, List.getLastD_cons]
    exact getLastD_of_ne_nil ps hps (x :: p) p

theorem takeWhile_reverse_cons_of_mem (c x : Char) (xs : List Char)
    (h : c ∈ xs) :
    (x :: xs).reverse.takeWhile (fun y => y != c)
      = xs.reverse.takeWhile (fun y => y != c) := by
  have hrev : (x :: xs).reverse = xs.reverse ++ [x] := by simp
  have hstop : ¬ ((xs.reverse.takeWhile (fun y => y != c)).length
      = xs.reverse.length) := by
    intro hlen
    have heq : xs.reverse.takeWhile (fun y => y != c) = xs.reverse :=
      (List.takeWhile_prefix _).eq_of_length hlen
    have hmem : c ∈ xs.reverse.takeWhile (fun y => y != c) := by
      rw [heq]
      exact List.mem_reverse.mpr h
    have hcontra :=
      @List.mem_takeWhile_imp Char (fun y => y != c) xs.reverse c hmem
    simp at hcontra
  rw [hrev, List.takeWhile_append, if_neg hstop]

theorem getLastD_splitOnChar (c : Char) (l : List Char) :
    (splitOnChar c l).getLastD []
      = (l.reverse.takeWhile (fun y => y != c)).reverse := by
  induction l with
  | nil => rfl
  | cons x xs ih =>
    have hrev : (x :: xs).reverse = xs.reverse ++ [x] := by simp
    by_cases hc : c ∈ xs
    · rw [getLastD_splitOnChar_cons_of_mem c x xs hc, ih,
        takeWhile_reverse_cons_of_mem c x xs hc]
    · have hall : xs.reverse.takeWhile (fun y => y != c) = xs.reverse := by
        refine takeWhile_eq_self_of_all _ _ (fun a ha => ?_)
        have ha2 : a ∈ xs := List.mem_reverse.mp ha
        have hne : a ≠ c := fun he => hc (he ▸ ha2)
        simpa using hne
      have hlen : (xs.reverse.takeWhile (fun y => y != c)).length
          = xs.reverse.length := by rw [hall]
      have hsp := splitOnChar_of_not_mem c xs hc
      simp only [splitOnChar, hsp]
      rw [hrev, List.takeWhile_append, if_pos hlen]
      by_cases hx : x = c
      · have hpx : (x != c) = false := by simpa using hx
        rw [if_pos hx]
        simp [List.takeWhile_cons, hpx]
      · have hpx : (x != c) = true := by simpa using hx
        rw [if_neg hx]
        simp [List.takeWhile_cons, hpx]

/-! ## Claim theorems for tenant resolution and credentials -/

/-- C9: the source tenant resolution agrees everywhere with the
specification-side resolver: a total function sending empty or
at-sign-free emails to the default tenant, and otherwise matching the
lower-cased domain after the last at sign against the configured table
with a default for unmapped domains. -/
theorem c9_tenant_resolution_total (email : String) :
    get_company_from_email email = resolveSpecTenant email := by
  unfold get_company_from_email resolveSpecTenant
  by_cases h : email = "" ∨ '@' ∉ email.data
  · simp [h]
  · rw [if_neg h, if_neg h, getLastD_splitOnChar]
    cases hl : domain_map.lookup
        (lowerStr ⟨(email.data.reverse.takeWhile (fun c => c != '@')).reverse⟩) with
    | none => simp [hl]
    | some t => simp [hl]

/-- C4: the credential lookup returns exactly the per-tenant secret when
one is configured and non-empty (with no warning), and exactly the
generic fallback secret with the warning flag in every other case — in
particular it never returns a secret configured for a different tenant. -/
theorem c4_credential_lookup (cfg : Config) (company : String) :
    (tenantSecret cfg company ≠ ""
      ∧ get_company_token cfg company = (tenantSecret cfg company, false))
    ∨ (tenantSecret cfg company = ""
      ∧ get_company_token cfg company = (pyStrip (cfg.getenv "DBT_TOKEN"), true)) := by
  unfold get_company_token
  by_cases h : tenantSecret cfg company = ""
  · exact Or.inr ⟨h, by simp [h]⟩
  · exact Or.inl ⟨h, by simp [h]⟩

/-! ## Claim C7: no resolvable credential stops the connection -/

theorem tenantSecret_empty_of_env_empty (cfg : Config)
    (h1 : pyStrip (cfg.getenv "DBT_TECHCORP_TOKEN") = "")
    (h2 : pyStrip (cfg.getenv "DBT_RETAILPLUS_TOKEN") = "")
    (h3 : pyStrip (cfg.getenv "DBT_MANUFACTURINGCO_TOKEN") = "")
    (company : String) : tenantSecret cfg company = "" := by
  unfold tenantSecret companyTokenMap
  rw [h1, h2, h3]
  simp only [List.lookup]
  split
  · rfl
  · split
    · rfl
    · split
      · rfl
      · rfl

theorem resolve_jdbc_url_empty_of_no_tokens (cfg : Config)
    (hsec : cfg.secrets_jdbc_url = none)
    (h1 : pyStrip (cfg.getenv "DBT_TECHCORP_TOKEN") = "")
    (h2 : pyStrip (cfg.getenv "DBT_RETAILPLUS_TOKEN") = "")
    (h3 : pyStrip (cfg.getenv "DBT_MANUFACTURINGCO_TOKEN") = "")
    (h4 : pyStrip (cfg.getenv "DBT_TOKEN") = "") (me : Option String) :
    resolve_jdbc_url cfg me = "" := by
  unfold resolve_jdbc_url
  rw [hsec]
  cases me with
  | none => simp [h4]
  | some e =>
    by_cases he : e = ""
    · simp [he, h4]
    · have hct : companyToken cfg e = "" := by
        unfold companyToken get_company_token
        rw [tenantSecret_empty_of_env_empty cfg h1 h2 h3]
        simp [h4]
      simp [he, hct]

/-- C7: with no secrets-file JDBC URL, no per-tenant token and no
fallback token, `ensure_connection` resolves no JDBC source, reports the
terminal error (modelled as returning no descriptor), and leaves the
session untouched — no query can be issued. -/
theorem c7_no_credential_stops (cfg : Config) (s : SessionState) (fr : Bool)
    (me : Option String)
    (hsec : cfg.secrets_jdbc_url = none)
    (h1 : pyStrip (cfg.getenv "DBT_TECHCORP_TOKEN") = "")
    (h2 : pyStrip (cfg.getenv "DBT_RETAILPLUS_TOKEN") = "")
    (h3 : pyStrip (cfg.getenv "DBT_MANUFACTURINGCO_TOKEN") = "")
    (h4 : pyStrip (cfg.getenv "DBT_TOKEN") = "") :
    (ensure_connection cfg s fr me).conn = none
    ∧ (ensure_connection cfg s fr me).state = s
    ∧ (ensure_connection cfg s fr me).rebuilt = false := by
  have hr : ∀ m, resolve_jdbc_url cfg m = "" := fun m =>
    resolve_jdbc_url_empty_of_no_tokens cfg hsec h1 h2 h3 h4 m
  unfold ensure_connection
  simp [hr]

/-- C7 witness: with the entirely empty configuration, a connection
attempt for a member of the unconfigured tenant `beta` yields no
descriptor and an unchanged session. -/
theorem c7_witness :
    (emptyCfg.secrets_jdbc_url = none
      ∧ pyStrip (emptyCfg.getenv "DBT_TECHCORP_TOKEN") = ""
      ∧ pyStrip (emptyCfg.getenv "DBT_RETAILPLUS_TOKEN") = ""
      ∧ pyStrip (emptyCfg.getenv "DBT_MANUFACTURINGCO_TOKEN") = ""
      ∧ pyStrip (emptyCfg.getenv "DBT_TOKEN") = "")
    ∧ ((ensure_connection emptyCfg initSession false (some "bob@beta.com")).conn
        = none
      ∧ (ensure_connection emptyCfg initSession false
          (some "bob@beta.com")).state = initSession
      ∧ (ensure_connection emptyCfg initSession false
          (some "bob@beta.com")).rebuilt = false) :=
  ⟨⟨rfl, rfl, rfl, rfl, rfl⟩,
    c7_no_credential_stops emptyCfg initSession false (some "bob@beta.com")
      rfl rfl rfl rfl rfl⟩

/-! ## Helper lemmas for URL splitting -/

theorem splitAtFirst_of_not_mem (c : Char) (l : List Char) (h : c ∉ l) :
    splitAtFirst c l = (l, none) := by
  induction l with
  | nil => rfl
  | cons x xs ih =>
    have hx : ¬ x = c := fun he => h (he ▸ List.mem_cons_self x xs)
    have hxs : c ∉ xs := fun hm => h (List.mem_cons_of_mem x hm)
    simp [splitAtFirst, hx, ih hxs]

theorem splitAtFirst_append (c : Char) (xs ys : List Char) (h : c ∉ xs) :
    splitAtFirst c (xs ++ c :: ys) = (xs, some ys) := by
  induction xs with
  | nil => simp [splitAtFirst]
  | cons x xt ih =>
    have hx : ¬ x = c := fun he => h (he ▸ List.mem_cons_self x xt)
    have hxt : c ∉ xt := fun hm => h (List.mem_cons_of_mem x hm)
    simp [splitAtFirst, hx, ih hxt]

theorem splitOnChar_append (c : Char) (xs ys : List Char) (h : c ∉ xs) :
    splitOnChar c (xs ++ c :: ys) = xs :: splitOnChar c ys := by
  induction xs with
  | nil =>
    simp only [List.nil_append, splitOnChar]
    rcases hsp : splitOnChar c ys with _ | ⟨p, ps⟩
    · exact absurd hsp (splitOnChar_ne_nil c ys)
    · simp
  | cons x xt ih =>
    have hx : ¬ x = c := fun he => h (he ▸ List.mem_cons_self x xt)
    have hxt : c ∉ xt := fun hm => h (List.mem_cons_of_mem x hm)
    simp only [List.cons_append, splitOnChar, List.append_eq]
    rw [ih hxt]
    simp [hx]

theorem data_ne_nil_of_ne_empty (s : String) (h : s ≠ "") : s.data ≠ [] := by
  intro hd
  apply h
  cases s with
  | mk d =>
    simp only at hd
    rw [hd]

theorem gca_buildJdbcUrl (host envId token : String)
    (hh1 : '?' ∉ host.data) (hh2 : '#' ∉ host.data)
    (hi1 : '&' ∉ envId.data) (hi2 : '#' ∉ envId.data) (hi0 : envId ≠ "")
    (ht1 : '&' ∉ token.data) (ht2 : '#' ∉ token.data) (ht0 : token ≠ "") :
    ∃ hst, get_connection_attributes (buildJdbcUrl host envId token) =
      some { host := hst
             params := [("environmentid", envId)]
             auth_header := "Bearer " ++ token } := by
  have hQT : ('&' : Char) ∉ "token=".data ++ token.data := by
    intro hm
    rcases List.mem_append.mp hm with hm | hm
    · exact absurd hm (by decide)
    · exact ht1 hm
  have hQE : ('&' : Char) ∉ "environmentId=".data ++ envId.data := by
    intro hm
    rcases List.mem_append.mp hm with hm | hm
    · exact absurd hm (by decide)
    · exact hi1 hm
  have hQ : ('#' : Char)
      ∉ "environmentId=".data
        ++ (envId.data ++ ('&' :: ("token=".data ++ token.data))) := by
    intro hm
    rcases List.mem_append.mp hm with hm | hm
    · exact absurd hm (by decide)
    rcases List.mem_append.mp hm with hm | hm
    · exact hi2 hm
    rcases List.mem_cons.mp hm with hm | hm
    · exact absurd hm (by decide)
    rcases List.mem_append.mp hm with hm | hm
    · exact absurd hm (by decide)
    · exact ht2 hm
  have hP : ('?' : Char)
      ∉ "arrow-flight-sql://".data ++ (host.data ++ ":443".data) := by
    intro hm
    rcases List.mem_append.mp hm with hm | hm
    · exact absurd hm (by decide)
    rcases List.mem_append.mp hm with hm | hm
    · exact hh1 hm
    · exact absurd hm (by decide)
  have hR : ('#' : Char)
      ∉ "arrow-flight-sql://".data
        ++ (host.data
          ++ (":443".data
            ++ ('?' :: ("environmentId=".data
              ++ (envId.data ++ ('&' :: ("token=".data ++ token.data))))))) := by
    intro hm
    rcases List.mem_append.mp hm with hm | hm
    · exact absurd hm (by decide)
    rcases List.mem_append.mp hm with hm | hm
    · exact hh2 hm
    rcases List.mem_append.mp hm with hm | hm
    · exact absurd hm (by decide)
    rcases List.mem_cons.mp hm with hm | hm
    · exact absurd hm (by decide)
    · exact hQ hm
  have hurl : (buildJdbcUrl host envId token).data
      = "jdbc".data
        ++ ':' :: ("arrow-flight-sql://".data
          ++ (host.data
            ++ (":443".data
              ++ ('?' :: ("environmentId=".data
                ++ (envId.data
                  ++ ('&' :: ("token=".data ++ token.data)))))))) := by
    simp only [buildJdbcUrl, String.data_append, List.append_assoc]
    rfl
  have hv : validScheme "jdbc".data = true := by decide
  have hscheme : schemeSplit (buildJdbcUrl host envId token).data
      = "arrow-flight-sql://".data
        ++ (host.data
          ++ (":443".data
            ++ ('?' :: ("environmentId=".data
              ++ (envId.data ++ ('&' :: ("token=".data ++ token.data))))))) := by
    rw [hurl]
    unfold schemeSplit
    rw [splitAtFirst_append ':' "jdbc".data _ (by decide)]
    simp [hv]
  have htake : ("arrow-flight-sql://".data
      ++ (host.data
        ++ (":443".data
          ++ ('?' :: ("environmentId=".data
            ++ (envId.data ++ ('&' :: ("token=".data ++ token.data)))))))).take 2
      = ['a', 'r'] := rfl
  have hnet : netlocStrip (schemeSplit (buildJdbcUrl host envId token).data)
      = schemeSplit (buildJdbcUrl host envId token).data := by
    rw [hscheme]
    unfold netlocStrip
    rw [htake]
    simp
  have hfrag : splitAtFirst '#' (schemeSplit (buildJdbcUrl host envId token).data)
      = (schemeSplit (buildJdbcUrl host envId token).data, none) := by
    rw [hscheme]
    exact splitAtFirst_of_not_mem '#' _ hR
  have hshape : schemeSplit (buildJdbcUrl host envId token).data
      = ("arrow-flight-sql://".data ++ (host.data ++ ":443".data))
        ++ '?' :: ("environmentId=".data
          ++ (envId.data ++ ('&' :: ("token=".data ++ token.data)))) := by
    rw [hscheme]
    simp [List.append_assoc]
  have hquery : splitAtFirst '?' (schemeSplit (buildJdbcUrl host envId token).data)
      = ("arrow-flight-sql://".data ++ (host.data ++ ":443".data),
         some ("environmentId=".data
           ++ (envId.data ++ ('&' :: ("token=".data ++ token.data))))) := by
    rw [hshape]
    exact splitAtFirst_append '?' _ _ hP
  have hampQ : splitOnChar '&'
      ("environmentId=".data
        ++ (envId.data ++ ('&' :: ("token=".data ++ token.data))))
      = ("environmentId=".data ++ envId.data)
        :: splitOnChar '&' ("token=".data ++ token.data) := by
    have hsh : "environmentId=".data
        ++ (envId.data ++ ('&' :: ("token=".data ++ token.data)))
        = ("environmentId=".data ++ envId.data)
          ++ '&' :: ("token=".data ++ token.data) := by
      simp [List.append_assoc]
    rw [hsh]
    exact splitOnChar_append '&' _ _ hQE
  have hampT : splitOnChar '&' ("token=".data ++ token.data)
      = [("token=".data ++ token.data)] :=
    splitOnChar_of_not_mem '&' _ hQT
  have hqe : splitAtFirst '=' ("environmentId=".data ++ envId.data)
      = ("environmentId".data, some envId.data) := by
    have hsh : "environmentId=".data ++ envId.data
        = "environmentId".data ++ '=' :: envId.data := rfl
    rw [hsh]
    exact splitAtFirst_append '=' _ _ (by decide)
  have hqt : splitAtFirst '=' ("token=".data ++ token.data)
      = ("token".data, some token.data) := by
    have hsh : "token=".data ++ token.data
        = "token".data ++ '=' :: token.data := rfl
    rw [hsh]
    exact splitAtFirst_append '=' _ _ (by decide)
  have hidata : envId.data ≠ [] := data_ne_nil_of_ne_empty envId hi0
  have htdata : token.data ≠ [] := data_ne_nil_of_ne_empty token ht0
  have hpairs : qsPairs ("environmentId=".data
      ++ (envId.data ++ ('&' :: ("token=".data ++ token.data))))
      = [("environmentId".data, envId.data), ("token".data, token.data)] := by
    unfold qsPairs
    rw [hampQ, hampT]
    simp only [List.filterMap_cons, List.filterMap_nil]
    rw [hqe, hqt]
    simp [hidata, htdata]
  have hlow1 : lowerStr ⟨"environmentId".data⟩ = "environmentid" := by decide
  have hlow2 : lowerStr ⟨"token".data⟩ = "token" := by decide
  have heta1 : (⟨envId.data⟩ : String) = envId := rfl
  have heta2 : (⟨token.data⟩ : String) = token := rfl
  have hdedup : dedupKeep []
      [("environmentid", envId), ("token", token)]
      = [("environmentid", envId), ("token", token)] := by
    have hc1 : ([] : List String).contains "environmentid" = false := rfl
    have hc2 : (["environmentid"] : List String).contains "token" = false := by
      decide
    simp [dedupKeep, hc1, hc2]
  have hlook : List.lookup "token"
      [(("environmentid" : String), envId), (("token" : String), token)]
      = some token := by
    have hb : (("token" : String) == "environmentid") = false := by decide
    simp [List.lookup, hb]
  have hfilter : List.filter (fun p => !(p.1 == "token"))
      [(("environmentid" : String), envId), (("token" : String), token)]
      = [("environmentid", envId)] := by
    have hb : (("environmentid" : String) == "token") = false := by decide
    simp [List.filter, hb]
  refine ⟨pyReplace
      (pyReplace ⟨"arrow-flight-sql://".data ++ (host.data ++ ":443".data)⟩
        "arrow-flight-sql" "https") ":443" "", ?_⟩
  unfold get_connection_attributes
  rw [hnet, hfrag]
  simp only []
  rw [hquery]
  simp only [Option.getD_some]
  rw [hpairs]
  simp only [List.map_cons, List.map_nil, hlow1, hlow2, heta1, heta2]
  rw [hdedup, hlook]
  rw [hfilter]

/-! ## Helper lemmas for connection caching -/

theorem resolve_jdbc_url_some (cfg : Config) (e : String)
    (hsec : cfg.secrets_jdbc_url = none) (he : e ≠ "") :
    resolve_jdbc_url cfg (some e)
      = (if companyToken cfg e = "" then ""
         else buildJdbcUrl (hostCfg cfg) (envIdCfg cfg) (companyToken cfg e)) := by
  unfold resolve_jdbc_url
  rw [hsec]
  simp [he]

theorem envIdCfg_ne_empty (cfg : Config) : envIdCfg cfg ≠ "" := by
  unfold envIdCfg
  split
  · decide
  · assumption

theorem ensure_connection_stop (cfg : Config) (s : SessionState) (fr : Bool)
    (e : String) (he : e ≠ "") (h0 : resolve_jdbc_url cfg (some e) = "") :
    ensure_connection cfg s fr (some e) = ⟨s, none, false⟩ := by
  unfold ensure_connection
  simp [optTruthy, he, h0]

theorem ensure_connection_first (cfg : Config) (s : SessionState) (e : String)
    (he : e ≠ "")
    (hfresh : s.conn = none ∨ s.conn_member_email ≠ some e)
    (hurl : resolve_jdbc_url cfg (some e) ≠ "")
    (catt : ConnAttr)
    (hgca : get_connection_attributes (resolve_jdbc_url cfg (some e))
      = some catt) :
    ensure_connection cfg s false (some e) =
      ⟨{ selected_member_email := s.selected_member_email
         conn_member_email := some e
         jdbc_url := some (resolve_jdbc_url cfg (some e))
         conn := some catt }, some catt, true⟩ := by
  obtain ⟨sel, cme, jd, cn⟩ := s
  have htr : optTruthy (some e) = true := by simp [optTruthy, he]
  by_cases hcme : cme = some e
  · have hcn : cn = none := by
      rcases hfresh with h | h
      · exact h
      · exact absurd hcme h
    subst hcme
    subst hcn
    by_cases hj : jd = some (resolve_jdbc_url cfg (some e))
    · unfold ensure_connection
      simp [htr, hurl, hj, hgca]
    · unfold ensure_connection
      simp [htr, hurl, hj, hgca]
  · unfold ensure_connection
    simp [htr, hurl, hcme, hgca]

theorem ensure_connection_cached (cfg : Config) (st : SessionState) (e : String)
    (he : e ≠ "") (hcme : st.conn_member_email = some e)
    (hjdbc : st.jdbc_url = some (resolve_jdbc_url cfg (some e)))
    (hurl : resolve_jdbc_url cfg (some e) ≠ "")
    (c : ConnAttr) (hconn : st.conn = some c) :
    ensure_connection cfg st false (some e) = ⟨st, some c, false⟩ := by
  have htr : optTruthy (some e) = true := by simp [optTruthy, he]
  unfold ensure_connection
  simp [htr, hurl, hcme, hjdbc, hconn]

/-! ## Claim C5: connection caching -/

/-- C5 (amended form): starting from a session that does not already
cache a connection for this member email, a successful
`ensure_connection` both embeds in the descriptor exactly the credential
resolved for the member's tenant and is cached: a second call with the
same member email returns the same descriptor without rebuilding and
without any state change.  (Rebuilds are keyed to member-email changes,
not tenant changes — see the counterexample.) -/
theorem c5_connection_caching (cfg : Config) (s : SessionState) (e : String)
    (c : ConnAttr) (he : e ≠ "")
    (hfresh : s.conn = none ∨ s.conn_member_email ≠ some e)
    (hconn : (ensure_connection cfg s false (some e)).conn = some c)
    (hsec : cfg.secrets_jdbc_url = none)
    (hh1 : '?' ∉ (hostCfg cfg).data) (hh2 : '#' ∉ (hostCfg cfg).data)
    (hi1 : '&' ∉ (envIdCfg cfg).data) (hi2 : '#' ∉ (envIdCfg cfg).data)
    (ht1 : '&' ∉ (companyToken cfg e).data)
    (ht2 : '#' ∉ (companyToken cfg e).data) :
    (ensure_connection cfg (ensure_connection cfg s false (some e)).state false
        (some e)).conn = some c
    ∧ (ensure_connection cfg (ensure_connection cfg s false (some e)).state false
        (some e)).rebuilt = false
    ∧ (ensure_connection cfg (ensure_connection cfg s false (some e)).state false
        (some e)).state = (ensure_connection cfg s false (some e)).state
    ∧ c.auth_header = "Bearer " ++ companyToken cfg e := by
  have hresolve := resolve_jdbc_url_some cfg e hsec he
  by_cases h0 : resolve_jdbc_url cfg (some e) = ""
  · rw [ensure_connection_stop cfg s false e he h0] at hconn
    exact absurd hconn (by simp)
  · have htok : companyToken cfg e ≠ "" := by
      intro ht
      apply h0
      rw [hresolve, if_pos ht]
    have hbuild : resolve_jdbc_url cfg (some e)
        = buildJdbcUrl (hostCfg cfg) (envIdCfg cfg) (companyToken cfg e) := by
      rw [hresolve, if_neg htok]
    obtain ⟨hst, hgca⟩ :=
      gca_buildJdbcUrl (hostCfg cfg) (envIdCfg cfg) (companyToken cfg e)
        hh1 hh2 hi1 hi2 (envIdCfg_ne_empty cfg) ht1 ht2 htok
    have hgca2 : get_connection_attributes (resolve_jdbc_url cfg (some e))
        = some { host := hst
                 params := [("environmentid", envIdCfg cfg)]
                 auth_header := "Bearer " ++ companyToken cfg e } := by
      rw [hbuild]
      exact hgca
    have hfirst := ensure_connection_first cfg s e he hfresh h0 _ hgca2
    have hc : c
        = { host := hst
            params := [("environmentid", envIdCfg cfg)]
            auth_header := "Bearer " ++ companyToken cfg e } := by
      rw [hfirst] at hconn
      exact (Option.some.inj hconn).symm
    have hsecond := ensure_connection_cached cfg
      { selected_member_email := s.selected_member_email
        conn_member_email := some e
        jdbc_url := some (resolve_jdbc_url cfg (some e))
        conn := some { host := hst
                       params := [("environmentid", envIdCfg cfg)]
                       auth_header := "Bearer " ++ companyToken cfg e } }
      e he rfl rfl h0 _ rfl
    refine ⟨?_, ?_, ?_, ?_⟩
    · rw [hfirst]
      simp only []
      rw [hsecond]
      rw [hc]
    · rw [hfirst]
      simp only []
      rw [hsecond]
    · rw [hfirst]
      simp only []
      rw [hsecond]
    · rw [hc]

/-- C5 (counterexample to the claim as stated): switching from
`alice@techcorp.com` to `bob@techcorp.com` leaves the resolved tenant
unchanged (both map to `techcorp`), yet the second `ensure_connection`
call rebuilds the descriptor — rebuilds are keyed to the member email,
not to the tenant, so churn is not bounded to tenant switches. -/
theorem c5_counterexample :
    get_company_from_email "alice@techcorp.com"
      = get_company_from_email "bob@techcorp.com"
    ∧ (ensure_connection witCfg
        (ensure_connection witCfg initSession false
          (some "alice@techcorp.com")).state
        false (some "bob@techcorp.com")).rebuilt = true := by
  constructor
  · decide
  · decide

/-- C5 witness: all hypotheses of the caching theorem hold for the
sample configuration with member `alice@techcorp.com`, and the theorem
yields the cached second call with the tenant credential embedded. -/
theorem c5_witness :
    (("alice@techcorp.com" : String) ≠ ""
      ∧ (initSession.conn = none
         ∨ initSession.conn_member_email ≠ some "alice@techcorp.com")
      ∧ (ensure_connection witCfg initSession false
          (some "alice@techcorp.com")).conn
        = some { host := "https://semantic-layer.cloud.getdbt.com"
                 params := [("environmentid", "384973")]
                 auth_header := "Bearer tok_tech_123" }
      ∧ witCfg.secrets_jdbc_url = none
      ∧ '?' ∉ (hostCfg witCfg).data
      ∧ '#' ∉ (hostCfg witCfg).data
      ∧ '&' ∉ (envIdCfg witCfg).data
      ∧ '#' ∉ (envIdCfg witCfg).data
      ∧ '&' ∉ (companyToken witCfg "alice@techcorp.com").data
      ∧ '#' ∉ (companyToken witCfg "alice@techcorp.com").data)
    ∧ ((ensure_connection witCfg
          (ensure_connection witCfg initSession false
            (some "alice@techcorp.com")).state
          false (some "alice@techcorp.com")).conn
        = some { host := "https://semantic-layer.cloud.getdbt.com"
                 params := [("environmentid", "384973")]
                 auth_header := "Bearer tok_tech_123" }
      ∧ (ensure_connection witCfg
          (ensure_connection witCfg initSession false
            (some "alice@techcorp.com")).state
          false (some "alice@techcorp.com")).rebuilt = false
      ∧ (ensure_connection witCfg
          (ensure_connection witCfg initSession false
            (some "alice@techcorp.com")).state
          false (some "alice@techcorp.com")).state
        = (ensure_connection witCfg initSession false
            (some "alice@techcorp.com")).state
      ∧ ConnAttr.auth_header
          { host := "https://semantic-layer.cloud.getdbt.com"
            params := [("environmentid", "384973")]
            auth_header := "Bearer tok_tech_123" }
        = "Bearer " ++ companyToken witCfg "alice@techcorp.com") :=
  ⟨⟨by decide, Or.inl rfl, by decide, rfl, by decide, by decide, by decide,
     by decide, by decide, by decide⟩,
    c5_connection_caching witCfg initSession "alice@techcorp.com"
      { host := "https://semantic-layer.cloud.getdbt.com"
        params := [("environmentid", "384973")]
        auth_header := "Bearer tok_tech_123" }
      (by decide) (Or.inl rfl) (by decide) rfl (by decide) (by decide)
      (by decide) (by decide) (by decide) (by decide)⟩
